import Mathlib

/-!
Shallow embedding of the commission-resolution and transaction-lifecycle
core of the AutoMarketUIO backend (src/backend/src/models/CommissionSetting.ts,
Commission.ts, Transaction.ts), with theorems settling the frozen claims.
Prices and monetary values are modelled as rationals; the database is an
explicit list parameter; the ordered read of the rule store models
`orderBy('priority', 'desc').orderBy('created_at', 'asc')`.
-/

namespace AutoMarket

/-- User roles, from `UserRole` in User.ts. -/
inductive UserRole where
  | buyer
  | seller
  | dealer
  | admin
deriving DecidableEq

/-- Commission rule types, from `CommissionType` in CommissionSetting.ts. -/
inductive CommissionType where
  | percentage
  | fixed
deriving DecidableEq

/-- A commission rule row, from the `CommissionSetting` model.
`min_price`, `max_price` and `user_role` are nullable columns;
`created_at` is an abstract creation timestamp used only for ordering. -/
structure CommissionSetting where
  id : String
  name : String
  type : CommissionType
  value : ℚ
  min_price : Option ℚ
  max_price : Option ℚ
  user_role : Option UserRole
  is_active : Bool
  priority : Int
  created_at : Nat
deriving DecidableEq

/-- JS-truthiness guard of `if (this.min_price && price < this.min_price)`:
the branch fires only when the bound is present, nonzero, and the price is
below it. -/
def boundBlocksLow (o : Option ℚ) (price : ℚ) : Bool :=
  match o with
  | none => false
  | some m => decide (m ≠ 0) && decide (price < m)

/-- JS-truthiness guard of `if (this.max_price && price > this.max_price)`. -/
def boundBlocksHigh (o : Option ℚ) (price : ℚ) : Bool :=
  match o with
  | none => false
  | some m => decide (m ≠ 0) && decide (m < price)

/-- `CommissionSetting.appliesToPrice` (CommissionSetting.ts lines 44-52). -/
def CommissionSetting.appliesToPrice (s : CommissionSetting) (price : ℚ) : Bool :=
  if boundBlocksLow s.min_price price then false
  else if boundBlocksHigh s.max_price price then false
  else true

/-- `CommissionSetting.appliesToRole` (CommissionSetting.ts lines 54-59). -/
def CommissionSetting.appliesToRole (s : CommissionSetting) (role : Option UserRole) : Bool :=
  match s.user_role with
  | none => true
  | some r => decide (some r = role)

/-- `CommissionSetting.calculateAmount` (CommissionSetting.ts lines 61-66). -/
def CommissionSetting.calculateAmount (s : CommissionSetting) (price : ℚ) : ℚ :=
  if s.type = CommissionType.percentage then price * (s.value / 100)
  else s.value

/-- The scan order of the rule store read:
`orderBy('priority', 'desc').orderBy('created_at', 'asc')`. -/
def scanLE (a b : CommissionSetting) : Prop :=
  b.priority < a.priority ∨ (a.priority = b.priority ∧ a.created_at ≤ b.created_at)

instance : DecidableRel scanLE := fun a b =>
  inferInstanceAs (Decidable (b.priority < a.priority ∨
    (a.priority = b.priority ∧ a.created_at ≤ b.created_at)))

instance : IsTotal CommissionSetting scanLE :=
  ⟨by intro a b; unfold scanLE; omega⟩

instance : IsTrans CommissionSetting scanLE :=
  ⟨by intro a b c; unfold scanLE; omega⟩

/-- `r` strictly precedes `w` in the scan order: higher priority, or equal
priority and strictly earlier creation. -/
def scanBefore (r w : CommissionSetting) : Prop :=
  w.priority < r.priority ∨ (r.priority = w.priority ∧ r.created_at < w.created_at)

/-- The ordered read of active rules (`findActive` /
the query inside `findApplicable`, CommissionSetting.ts lines 108-112). -/
def findActive (db : List CommissionSetting) : List CommissionSetting :=
  List.insertionSort scanLE (db.filter (fun s => s.is_active))

/-- The predicate of the linear scan inside `findApplicable`. -/
def applies (s : CommissionSetting) (price : ℚ) (role : Option UserRole) : Bool :=
  s.appliesToPrice price && s.appliesToRole role

/-- `CommissionSetting.findApplicable` (CommissionSetting.ts lines 108-121):
first active rule, in scan order, applying to both price and role. -/
def findApplicable (db : List CommissionSetting) (price : ℚ)
    (role : Option UserRole) : Option CommissionSetting :=
  (findActive db).find? (fun s => applies s price role)

/-- The fee breakdown returned by `Commission.calculateCommission`. -/
structure FeeBreakdown where
  amount : ℚ
  percentage : ℚ
  settingId : Option String
deriving DecidableEq

/-- `Commission.calculateCommission` (Commission.ts lines 77-109):
resolve the applicable rule; on no match, fall back to a hardcoded 5%. -/
def calculateCommission (db : List CommissionSetting) (price : ℚ)
    (role : Option UserRole) : FeeBreakdown :=
  match findApplicable db price role with
  | none => ⟨price * (5 / 100), 5, none⟩
  | some s =>
    let amount := if s.type = CommissionType.percentage
      then price * (s.value / 100) else s.value
    let percentage := if s.type = CommissionType.percentage
      then s.value else (amount / price) * 100
    ⟨amount, percentage, some s.id⟩

/-- Transaction statuses, from `TransactionStatus` in Transaction.ts. -/
inductive TransactionStatus where
  | pending
  | processing
  | completed
  | cancelled
  | refunded
deriving DecidableEq

/-- Vehicle statuses, from `VehicleStatus` in Vehicle.ts. -/
inductive VehicleStatus where
  | available
  | reserved
  | sold
  | inactive
deriving DecidableEq

/-- The fields of the `Vehicle` model touched by the transaction lifecycle. -/
structure Vehicle where
  id : String
  status : VehicleStatus
  sold_at : Option Nat
deriving DecidableEq

/-- The `Transaction` model row (Transaction.ts lines 16-31).
Timestamps are abstract naturals. -/
structure Transaction where
  transaction_number : String
  vehicle_id : String
  buyer_id : String
  seller_id : String
  price : ℚ
  commission_amount : ℚ
  net_amount : ℚ
  status : TransactionStatus
  payment_method : Option String
  payment_reference : Option String
  notes : Option String
  completed_at : Option Nat
  cancelled_at : Option Nat
  cancelled_reason : Option String
deriving DecidableEq

/-- `Transaction.canBeCancelled` (Transaction.ts lines 166-168). -/
def Transaction.canBeCancelled (t : Transaction) : Bool :=
  decide (t.status = TransactionStatus.pending ∨ t.status = TransactionStatus.processing)

/-- `Transaction.canBeCompleted` (Transaction.ts lines 170-172). -/
def Transaction.canBeCompleted (t : Transaction) : Bool :=
  decide (t.status = TransactionStatus.processing)

/-- `Transaction.complete` (Transaction.ts lines 129-143): patch the
transaction to completed and the vehicle row whose id matches `vehicle_id`
to sold. `now` is the wall clock read by `new Date()`. -/
def Transaction.complete (t : Transaction) (v : Vehicle) (ref : String)
    (now : Nat) : Transaction × Vehicle :=
  ({ t with
      status := TransactionStatus.completed
      payment_reference := some ref
      completed_at := some now },
   if v.id = t.vehicle_id then
     { v with status := VehicleStatus.sold, sold_at := some now }
   else v)

/-- `Transaction.cancel` (Transaction.ts lines 145-158): patch the
transaction to cancelled with the reason, and the vehicle back to available. -/
def Transaction.cancel (t : Transaction) (v : Vehicle) (reason : String)
    (now : Nat) : Transaction × Vehicle :=
  ({ t with
      status := TransactionStatus.cancelled
      cancelled_reason := some reason
      cancelled_at := some now },
   if v.id = t.vehicle_id then
     { v with status := VehicleStatus.available }
   else v)

/-- `Transaction.process` (Transaction.ts lines 160-164). -/
def Transaction.process (t : Transaction) : Transaction :=
  { t with status := TransactionStatus.processing }

/-- Error taxonomy of the HTTP layer (spec section 7). -/
inductive ApiError where
  | notFound
  | invalidState
  | validationFailure
deriving DecidableEq

/-- Modelled from the spec: the HTTP controller that drives the lifecycle is
not under src/; per spec section 4.2, the caller verifies `canBeCompleted()`
and rejects with `InvalidState` otherwise, only then invoking `complete`. -/
def completeGuarded (t : Transaction) (v : Vehicle) (ref : String)
    (now : Nat) : Except ApiError (Transaction × Vehicle) :=
  if t.canBeCompleted then Except.ok (t.complete v ref now)
  else Except.error ApiError.invalidState

/-- Modelled from the spec: the resulting database state of a guarded
complete call — on rejection no patch is issued and both rows keep their
prior values. -/
def runComplete (t : Transaction) (v : Vehicle) (ref : String)
    (now : Nat) : Transaction × Vehicle :=
  match completeGuarded t v ref now with
  | Except.ok s => s
  | Except.error _ => (t, v)

/-- JS `String(n).padStart(2, '0')` on a natural number. -/
def pad2 (n : Nat) : String :=
  if n < 10 then "0" ++ toString n else toString n

/-- The random part of the transaction number: JS
`Math.random().toString(36).substring(2, 8).toUpperCase()`, applied to the
base-36 representation (a character list) of the random value. -/
def randSuffix (repr36 : List Char) : List Char :=
  ((repr36.drop 2).take 6).map Char.toUpper

/-- A character is a lower-case base-36 digit as produced by JS
`Number.prototype.toString(36)`. -/
def isBase36 (c : Char) : Bool :=
  c.isDigit || (decide ('a' ≤ c) && decide (c ≤ 'z'))

/-- Valid outputs of `Math.random().toString(36)` for a value in [0, 1):
either `"0"` exactly, or `"0."` followed by at least one base-36 digit. -/
def validJsRepr (repr36 : List Char) : Bool :=
  match repr36 with
  | ['0'] => true
  | '0' :: '.' :: ds => !ds.isEmpty && ds.all isBase36
  | _ => false

/-- `Transaction.generateTransactionNumber` (Transaction.ts lines 119-127),
parametrised by the clock-read date and the base-36 representation of the
`Math.random()` output. -/
def generateTransactionNumber (year month day : Nat) (repr36 : List Char) : String :=
  "TXN-" ++ toString year ++ pad2 month ++ pad2 day ++ "-" ++ String.mk (randSuffix repr36)

/-- Creation of a transaction via `$beforeInsert` (Transaction.ts lines
110-116) and the jsonSchema status default: no explicit number or status is
supplied, so the number is generated and the status defaults to pending. -/
def createTransaction (vid bid sid : String) (price net : ℚ)
    (year month day : Nat) (repr36 : List Char) : Transaction :=
  { transaction_number := generateTransactionNumber year month day repr36
    vehicle_id := vid
    buyer_id := bid
    seller_id := sid
    price := price
    commission_amount := 0
    net_amount := net
    status := TransactionStatus.pending
    payment_method := none
    payment_reference := none
    notes := none
    completed_at := none
    cancelled_at := none
    cancelled_reason := none }

/-- The `Commission` model row (Commission.ts lines 6-18); `transaction` is
the optionally loaded relation. -/
structure Commission where
  id : String
  transaction_id : String
  commission_setting_id : Option String
  amount : ℚ
  percentage : Option ℚ
  is_paid : Bool
  paid_at : Option Nat
  payment_reference : Option String
  transaction : Option Transaction
deriving DecidableEq

/-- The second and third branches of `getEffectivePercentage`: back-compute
from the loaded transaction when its price is positive, else 0. -/
def effFallback (c : Commission) : ℚ :=
  match c.transaction with
  | some t => if 0 < t.price then (c.amount / t.price) * 100 else 0
  | none => 0

/-- `Commission.getEffectivePercentage` (Commission.ts lines 66-74);
`if (this.percentage)` is JS-truthy, so a stored 0 falls through. -/
def Commission.getEffectivePercentage (c : Commission) : ℚ :=
  match c.percentage with
  | some q => if q = 0 then effFallback c else q
  | none => effFallback c

/-- The patch applied by `payBatch` to each matched row. -/
def paidPatch (c : Commission) (ref : String) (now : Nat) : Commission :=
  { c with is_paid := true, paid_at := some now, payment_reference := some ref }

/-- `Commission.payBatch` (Commission.ts lines 176-185): patch every row
whose id is listed and whose `is_paid` is false; return the patched rows
alongside the patch count reported by the query. -/
def payBatch (db : List Commission) (ids : List String) (ref : String)
    (now : Nat) : List Commission × Nat :=
  (db.map (fun c => if ids.contains c.id && !c.is_paid then paidPatch c ref now else c),
   (db.filter (fun c => ids.contains c.id && !c.is_paid)).length)

/-- Declarative characterisation of one resolution (spec sections 4.1 and 8):
either the returned rule is active, applies, and no active applying rule
strictly precedes it in scan order, or no active rule applies and the
hardcoded 5% fallback is returned. -/
def ResolverSpec (db : List CommissionSetting) (p : ℚ) (role : Option UserRole) : Prop :=
  (∃ w, findApplicable db p role = some w ∧ w ∈ db ∧ w.is_active = true ∧
      applies w p role = true ∧
      (∀ r ∈ db, r.is_active = true → applies r p role = true → ¬ scanBefore r w) ∧
      calculateCommission db p role =
        ⟨w.calculateAmount p,
         if w.type = CommissionType.percentage then w.value
         else (w.calculateAmount p / p) * 100,
         some w.id⟩)
  ∨ ((∀ r ∈ db, r.is_active = true → applies r p role = false) ∧
      findApplicable db p role = none ∧
      calculateCommission db p role = ⟨p * (5 / 100), 5, none⟩)

/-- Sample rule mirroring the `createDefault` standard row: 5% for everyone. -/
def ruleStd : CommissionSetting :=
  ⟨"std-id", "standard", CommissionType.percentage, 5, none, none, none, true, 0, 0⟩

/-- Sample rule mirroring the `createDefault` premium row: 3% for dealers. -/
def rulePremium : CommissionSetting :=
  ⟨"prem-id", "premium", CommissionType.percentage, 3, none, none,
   some UserRole.dealer, true, 10, 1⟩

/-- Sample rule mirroring the `createDefault` economy row: fixed 500 up to
price 10000. -/
def ruleEco : CommissionSetting :=
  ⟨"eco-id", "economy", CommissionType.fixed, 500, none, some 10000, none, true, 5, 2⟩

/-- A sample vehicle row associated with the sample transactions. -/
def sampleVehicle : Vehicle := ⟨"veh-1", VehicleStatus.reserved, none⟩

/-- A sample transaction over `sampleVehicle` in a given status. -/
def sampleTxn (st : TransactionStatus) : Transaction :=
  ⟨"TXN-20260101-ABC123", "veh-1", "buyer-1", "seller-1", 25000, 1250, 23750,
   st, none, none, none, none, none, none⟩

/-- A sample commission row with a stored nonzero percentage. -/
def sampleCommission : Commission :=
  ⟨"com-1", "txn-1", some "std-id", 1250, some 7, false, none, none, none⟩

/-- A sample commission row that is already paid. -/
def paidCommission : Commission :=
  ⟨"com-2", "txn-2", none, 100, none, true, some 5, some "oldref", none⟩

/-- A sample unpaid commission row. -/
def unpaidCommission : Commission :=
  ⟨"com-3", "txn-3", none, 200, none, false, none, none, none⟩

/-- Row-wise contract of a `payBatch` call (claim C10): already-paid rows and
unlisted rows are returned untouched, listed unpaid rows get exactly the paid
patch, and the reported count equals the number of rows newly flipped to paid. -/
def PayBatchSpec (db : List Commission) (ids : List String) (ref : String)
    (now : Nat) : Prop :=
  List.Forall₂ (fun cNew cOld =>
      (cOld.is_paid = true → cNew = cOld) ∧
      (ids.contains cOld.id = false → cNew = cOld) ∧
      (cOld.is_paid = false → ids.contains cOld.id = true →
        cNew = paidPatch cOld ref now))
    (payBatch db ids ref now).1 db ∧
  (payBatch db ids ref now).2 =
    ((payBatch db ids ref now).1.zip db).countP
      (fun q => !q.2.is_paid && q.1.is_paid)

theorem scanLE_not_scanBefore {w r : CommissionSetting}
    (h : scanLE w r) (hb : scanBefore r w) : False := by
  unfold scanLE at h
  unfold scanBefore at hb
  omega

theorem scanBefore_irrefl (w : CommissionSetting) : ¬ scanBefore w w := by
  unfold scanBefore
  omega

theorem sorted_find_first {pred : CommissionSetting → Bool} :
    ∀ {l : List CommissionSetting} {w : CommissionSetting}, l.Sorted scanLE →
      l.find? pred = some w → ∀ r ∈ l, scanBefore r w → pred r = false := by
  intro l
  induction l with
  | nil =>
    intro w _ hf
    simp at hf
  | cons x xs ih =>
    intro w hs hf r hr hb
    rw [List.sorted_cons] at hs
    by_cases hx : pred x
    · rw [List.find?_cons_of_pos _ hx] at hf
      have hw : x = w := by injection hf
      rcases List.mem_cons.mp hr with h | h
      · subst h
        subst hw
        exact absurd hb (scanBefore_irrefl r)
      · exact absurd hb (fun hb2 =>
          scanLE_not_scanBefore (hw ▸ hs.1 r h) hb2)
    · rw [List.find?_cons_of_neg _ hx] at hf
      rcases List.mem_cons.mp hr with h | h
      · subst h
        exact eq_false_of_ne_true (fun ht => hx ht)
      · exact ih hs.2 hf r h hb

theorem mem_findActive_iff {s : CommissionSetting} {db : List CommissionSetting} :
    s ∈ findActive db ↔ s ∈ db ∧ s.is_active = true := by
  unfold findActive
  rw [(List.perm_insertionSort scanLE _).mem_iff, List.mem_filter]

theorem sorted_findActive (db : List CommissionSetting) :
    (findActive db).Sorted scanLE :=
  List.sorted_insertionSort scanLE _

/-- C1: for every price p ≥ 0, role (possibly absent) and rule set, the
resolver returns the first applying rule in order of descending priority and
ascending creation time, and, when no active rule applies, the hardcoded 5%
fallback with no rule id. -/
theorem resolver_first_match (db : List CommissionSetting) (p : ℚ)
    (role : Option UserRole) (hp : 0 ≤ p) : ResolverSpec db p role := by
  rcases hfa : findApplicable db p role with _ | w
  · right
    have hfind : (findActive db).find? (fun s => applies s p role) = none := hfa
    refine ⟨?_, hfa, ?_⟩
    · intro r hr hact
      have hmem : r ∈ findActive db := mem_findActive_iff.mpr ⟨hr, hact⟩
      have := List.find?_eq_none.mp hfind r hmem
      simpa using this
    · unfold calculateCommission
      rw [hfa]
  · left
    have hfind : (findActive db).find? (fun s => applies s p role) = some w := hfa
    refine ⟨w, hfa, ?_, ?_, ?_, ?_, ?_⟩
    · exact (mem_findActive_iff.mp (List.mem_of_find?_eq_some hfind)).1
    · exact (mem_findActive_iff.mp (List.mem_of_find?_eq_some hfind)).2
    · have happ := List.find?_some hfind
      simpa using happ
    · intro r hr hact happ hb
      have hmem : r ∈ findActive db := mem_findActive_iff.mpr ⟨hr, hact⟩
      have := sorted_find_first (sorted_findActive db) hfind r hmem hb
      rw [happ] at this
      exact Bool.true_eq_false.mp this
    · unfold calculateCommission
      rw [hfa]
      rfl

/-- Witness for C1 at the spec section 8 scenario: price 20000, role dealer,
against the standard and premium sample rules. -/
theorem resolver_first_match_witness :
    (0 : ℚ) ≤ 20000 ∧ ResolverSpec [ruleStd, rulePremium] 20000 (some UserRole.dealer) :=
  ⟨by norm_num, resolver_first_match _ _ _ (by norm_num)⟩

/-- C2: from pending, cancelled or completed, a guarded complete call is
rejected with InvalidState, no patch is issued so both the transaction and
the vehicle keep their prior values, and `canBeCompleted()` is false; no
success value is produced. -/
theorem complete_rejected_outside_processing (t : Transaction) (v : Vehicle)
    (ref : String) (now : Nat)
    (h : t.status = TransactionStatus.pending ∨
      t.status = TransactionStatus.cancelled ∨
      t.status = TransactionStatus.completed) :
    t.canBeCompleted = false ∧
    completeGuarded t v ref now = Except.error ApiError.invalidState ∧
    runComplete t v ref now = (t, v) ∧
    (∀ s, completeGuarded t v ref now ≠ Except.ok s) := by
  have hne : t.canBeCompleted = false := by
    rcases h with h | h | h <;> simp [Transaction.canBeCompleted, h]
  refine ⟨hne, ?_, ?_, ?_⟩
  · simp [completeGuarded, hne]
  · simp [runComplete, completeGuarded, hne]
  · intro s
    simp [completeGuarded, hne]

/-- Witness for C2 at a concrete pending transaction. -/
theorem complete_rejected_witness :
    (sampleTxn TransactionStatus.pending).canBeCompleted = false ∧
    completeGuarded (sampleTxn TransactionStatus.pending) sampleVehicle "ref-1" 0 =
      Except.error ApiError.invalidState ∧
    runComplete (sampleTxn TransactionStatus.pending) sampleVehicle "ref-1" 0 =
      (sampleTxn TransactionStatus.pending, sampleVehicle) ∧
    (∀ s, completeGuarded (sampleTxn TransactionStatus.pending) sampleVehicle "ref-1" 0 ≠
      Except.ok s) :=
  complete_rejected_outside_processing _ _ _ _ (Or.inl rfl)

/-- C3: cancelling from pending or processing marks the transaction
cancelled, records the timestamp, stores the reason verbatim, and resets the
associated vehicle to available. -/
theorem cancel_resets_vehicle (t : Transaction) (v : Vehicle) (reason : String)
    (now : Nat) (hv : v.id = t.vehicle_id)
    (h : t.status = TransactionStatus.pending ∨
      t.status = TransactionStatus.processing) :
    (t.cancel v reason now).1.status = TransactionStatus.cancelled ∧
    (t.cancel v reason now).1.cancelled_at = some now ∧
    (t.cancel v reason now).1.cancelled_reason = some reason ∧
    (t.cancel v reason now).2.status = VehicleStatus.available := by
  simp [Transaction.cancel, hv]

/-- Witness for C3 at a concrete pending transaction over its vehicle. -/
theorem cancel_resets_vehicle_witness :
    sampleVehicle.id = (sampleTxn TransactionStatus.pending).vehicle_id ∧
    (((sampleTxn TransactionStatus.pending).cancel sampleVehicle "buyer left" 7).1.status =
        TransactionStatus.cancelled ∧
      ((sampleTxn TransactionStatus.pending).cancel sampleVehicle "buyer left" 7).1.cancelled_at =
        some 7 ∧
      ((sampleTxn TransactionStatus.pending).cancel sampleVehicle "buyer left" 7).1.cancelled_reason =
        some "buyer left" ∧
      ((sampleTxn TransactionStatus.pending).cancel sampleVehicle "buyer left" 7).2.status =
        VehicleStatus.available) :=
  ⟨rfl, cancel_resets_vehicle _ _ _ _ rfl (Or.inl rfl)⟩

/-- C4: for the winning rule, a percentage-type fee is exactly
price × value / 100 and a fixed-type fee is exactly the rule's value. -/
theorem fee_formula (db : List CommissionSetting) (p : ℚ) (role : Option UserRole)
    (w : CommissionSetting) (hp : 0 ≤ p) (hw : findApplicable db p role = some w) :
    (w.type = CommissionType.percentage →
      (calculateCommission db p role).amount = p * (w.value / 100)) ∧
    (w.type = CommissionType.fixed →
      (calculateCommission db p role).amount = w.value) := by
  constructor <;> intro ht <;> simp [calculateCommission, hw, ht]

/-- The economy sample rule wins at price 8000 with no role. -/
theorem findApplicable_eco_8000 : findApplicable [ruleEco] 8000 none = some ruleEco := by
  simp [findApplicable, findActive, applies, CommissionSetting.appliesToPrice,
    CommissionSetting.appliesToRole, boundBlocksLow, boundBlocksHigh, ruleEco,
    List.insertionSort, List.orderedInsert]
  norm_num

/-- Witness for C4: the fixed economy rule yields its value 500 at price 8000. -/
theorem fee_formula_witness :
    (0 : ℚ) ≤ 8000 ∧ findApplicable [ruleEco] 8000 none = some ruleEco ∧
    (calculateCommission [ruleEco] 8000 none).amount = ruleEco.value :=
  ⟨by norm_num, findApplicable_eco_8000,
    (fee_formula [ruleEco] 8000 none ruleEco (by norm_num) findApplicable_eco_8000).2 rfl⟩

/-- C5 counterexample: the division-by-zero branch IS reachable at price 0 —
the fixed-type economy rule wins the resolution at price 0, so the resolver
back-computes percentage as (500 / 0) × 100 there. -/
theorem fixed_rule_wins_at_price_zero :
    findApplicable [ruleEco] 0 none = some ruleEco ∧
    ruleEco.type = CommissionType.fixed ∧
    (calculateCommission [ruleEco] 0 none).amount = 500 ∧
    (calculateCommission [ruleEco] 0 none).percentage = (500 / 0) * 100 := by
  have hfa : findApplicable [ruleEco] 0 none = some ruleEco := by
    simp [findApplicable, findActive, applies, CommissionSetting.appliesToPrice,
      CommissionSetting.appliesToRole, boundBlocksLow, boundBlocksHigh, ruleEco,
      List.insertionSort, List.orderedInsert]
  refine ⟨hfa, rfl, ?_, ?_⟩ <;>
    · simp only [calculateCommission, hfa]
      simp [ruleEco]

/-- C5 amended: when the winning rule is fixed-type the returned percentage
equals (amount / price) × 100 under total rational division for every
price p ≥ 0; the division-by-zero branch at price 0 is reachable (see the
counterexample), no error condition being defined there. -/
theorem fixed_percentage_backcomputed (db : List CommissionSetting) (p : ℚ)
    (role : Option UserRole) (w : CommissionSetting) (hp : 0 ≤ p)
    (hw : findApplicable db p role = some w) (ht : w.type = CommissionType.fixed) :
    (calculateCommission db p role).percentage =
      ((calculateCommission db p role).amount / p) * 100 := by
  simp [calculateCommission, hw, ht]

/-- Witness for C5's amended theorem at the economy rule and price 8000. -/
theorem fixed_percentage_backcomputed_witness :
    (0 : ℚ) ≤ 8000 ∧
    (calculateCommission [ruleEco] 8000 none).percentage =
      ((calculateCommission [ruleEco] 8000 none).amount / 8000) * 100 :=
  ⟨by norm_num,
    fixed_percentage_backcomputed [ruleEco] 8000 none ruleEco (by norm_num)
      findApplicable_eco_8000 rfl⟩

/-- C6: commission resolution is a pure function of the rule set, price and
role — resolving the same pair twice against an unchanged rule set returns
the same winning rule and the same fee breakdown both times. -/
theorem resolver_deterministic (db : List CommissionSetting) (p : ℚ)
    (role : Option UserRole) :
    calculateCommission db p role = calculateCommission db p role ∧
    findApplicable db p role = findApplicable db p role :=
  ⟨rfl, rfl⟩

/-- C7 counterexample: the random value 1/2 prints in base 36 as `"0.i"`, a
valid output of the random source, and the generated suffix then has length
1, not 6 — the number is `TXN-20261012-I`. -/
theorem txn_number_not_always_six_chars :
    validJsRepr ['0', '.', 'i'] = true ∧
    generateTransactionNumber 2026 10 12 ['0', '.', 'i'] = "TXN-20261012-I" ∧
    (randSuffix ['0', '.', 'i']).length = 1 := by
  refine ⟨by decide, by decide, by decide⟩

/-- A sample base-36 representation with six fractional digits. -/
def sixDigitRepr : List Char := ['0', '.', 'a', 'b', 'c', 'd', 'e', 'f']

/-- C7 amended: every transaction created without an explicit number or
status has initial status pending and number `TXN-` ++ year ++ padded month
++ padded day ++ `-` ++ the first at-most-6 base-36 fractional digits of the
random value, uppercased; the suffix has exactly 6 characters only when the
random value's representation has at least 6 fractional digits. -/
theorem txn_creation_pending_and_number (vid bid sid : String) (price net : ℚ)
    (y m d : Nat) (repr36 : List Char) (h : validJsRepr repr36 = true) :
    (createTransaction vid bid sid price net y m d repr36).status =
      TransactionStatus.pending ∧
    (createTransaction vid bid sid price net y m d repr36).transaction_number =
      "TXN-" ++ toString y ++ pad2 m ++ pad2 d ++ "-" ++ String.mk (randSuffix repr36) ∧
    (randSuffix repr36).length = min 6 (repr36.length - 2) := by
  refine ⟨rfl, rfl, ?_⟩
  simp [randSuffix, Nat.min_comm]

/-- Witness for C7's amended theorem at a six-digit random representation. -/
theorem txn_creation_witness :
    validJsRepr sixDigitRepr = true ∧
    ((createTransaction "veh-1" "buyer-1" "seller-1" 100 95 2026 10 12
        sixDigitRepr).status = TransactionStatus.pending ∧
      (createTransaction "veh-1" "buyer-1" "seller-1" 100 95 2026 10 12
        sixDigitRepr).transaction_number =
        "TXN-" ++ toString 2026 ++ pad2 10 ++ pad2 12 ++ "-" ++
          String.mk (randSuffix sixDigitRepr) ∧
      (randSuffix sixDigitRepr).length = min 6 (sixDigitRepr.length - 2)) :=
  ⟨by decide,
    txn_creation_pending_and_number "veh-1" "buyer-1" "seller-1" 100 95 2026 10 12
      sixDigitRepr (by decide)⟩

theorem boundBlocksLow_iff (o : Option ℚ) (p : ℚ) :
    boundBlocksLow o p = true ↔ ∃ m, o = some m ∧ m ≠ 0 ∧ p < m := by
  rcases o with _ | m <;> simp [boundBlocksLow]

theorem boundBlocksHigh_iff (o : Option ℚ) (p : ℚ) :
    boundBlocksHigh o p = true ↔ ∃ m, o = some m ∧ m ≠ 0 ∧ m < p := by
  rcases o with _ | m <;> simp [boundBlocksHigh]

/-- C8: a rule fails to apply to a price exactly when a present nonzero
minimum bound exceeds the price or a present nonzero maximum bound is below
it; hence present bounds are inclusive and a stored 0 bound is treated as
absent. -/
theorem appliesToPrice_characterisation (s : CommissionSetting) (p : ℚ) :
    s.appliesToPrice p = false ↔
      (∃ m, s.min_price = some m ∧ m ≠ 0 ∧ p < m) ∨
      (∃ m, s.max_price = some m ∧ m ≠ 0 ∧ m < p) := by
  rw [← boundBlocksLow_iff s.min_price p, ← boundBlocksHigh_iff s.max_price p]
  unfold CommissionSetting.appliesToPrice
  cases hbl : boundBlocksLow s.min_price p <;>
    cases hbh : boundBlocksHigh s.max_price p <;> simp

/-- C9: `getEffectivePercentage` is total — a stored nonzero percentage is
returned as is; otherwise, with a loaded transaction of strictly positive
price, the percentage is back-computed from the amount; in every remaining
case (no stored nonzero percentage and no loaded positive-price transaction)
the result is 0, so the division is only taken at a positive price. -/
theorem effectivePercentage_cases (c : Commission) :
    (∀ q, c.percentage = some q → q ≠ 0 → c.getEffectivePercentage = q) ∧
    ((c.percentage = none ∨ c.percentage = some 0) →
      ∀ t, c.transaction = some t → 0 < t.price →
        c.getEffectivePercentage = (c.amount / t.price) * 100) ∧
    ((c.percentage = none ∨ c.percentage = some 0) →
      (c.transaction = none ∨ (∀ t, c.transaction = some t → ¬ 0 < t.price)) →
      c.getEffectivePercentage = 0) := by
  refine ⟨?_, ?_, ?_⟩
  · intro q hq hne
    simp [Commission.getEffectivePercentage, hq, hne]
  · intro hp t ht hpos
    rcases hp with hp | hp <;>
      simp [Commission.getEffectivePercentage, hp, effFallback, ht, hpos]
  · intro hp htr
    rcases htr with htr | htr
    · rcases hp with hp | hp <;>
        simp [Commission.getEffectivePercentage, hp, effFallback, htr]
    · rcases hc : c.transaction with _ | t
      · rcases hp with hp | hp <;>
          simp [Commission.getEffectivePercentage, hp, effFallback, hc]
      · have := htr t hc
        rcases hp with hp | hp <;>
          simp [Commission.getEffectivePercentage, hp, effFallback, hc, this]

/-- Witness for C9: a stored percentage of 7 is returned unchanged. -/
theorem effectivePercentage_witness :
    sampleCommission.percentage = some 7 ∧ (7 : ℚ) ≠ 0 ∧
    sampleCommission.getEffectivePercentage = 7 :=
  ⟨rfl, by norm_num,
    (effectivePercentage_cases sampleCommission).1 7 rfl (by norm_num)⟩

theorem payBatch_rows (db : List Commission) (ids : List String) (ref : String)
    (now : Nat) :
    List.Forall₂ (fun cNew cOld =>
      (cOld.is_paid = true → cNew = cOld) ∧
      (ids.contains cOld.id = false → cNew = cOld) ∧
      (cOld.is_paid = false → ids.contains cOld.id = true →
        cNew = paidPatch cOld ref now))
      (payBatch db ids ref now).1 db := by
  induction db with
  | nil => simp [payBatch]
  | cons c cs ih =>
    refine List.Forall₂.cons ?_ ih
    by_cases hid : c.id ∈ ids <;> by_cases hpaid : c.is_paid <;>
      simp [hid, hpaid]

theorem payBatch_count (db : List Commission) (ids : List String) (ref : String)
    (now : Nat) :
    (payBatch db ids ref now).2 =
      ((payBatch db ids ref now).1.zip db).countP
        (fun q => !q.2.is_paid && q.1.is_paid) := by
  induction db with
  | nil => simp [payBatch]
  | cons c cs ih =>
    by_cases hid : c.id ∈ ids <;> by_cases hpaid : c.is_paid <;>
      simp [payBatch, List.countP_cons, List.filter_cons, hid, hpaid, paidPatch]
        at ih ⊢ <;>
      omega

/-- C10: `payBatch` patches exactly the listed unpaid commissions — rows
already paid and rows not listed keep all their fields — and the reported
count equals the number of rows newly flipped from unpaid to paid. -/
theorem payBatch_frame (db : List Commission) (ids : List String) (ref : String)
    (now : Nat) : PayBatchSpec db ids ref now :=
  ⟨payBatch_rows db ids ref now, payBatch_count db ids ref now⟩

/-- Witness for C10 on a concrete two-row batch: the paid row is untouched,
the unpaid listed row is patched, and the count is 1. -/
theorem payBatch_frame_witness :
    PayBatchSpec [paidCommission, unpaidCommission] ["com-2", "com-3"] "batch-1" 9 ∧
    (payBatch [paidCommission, unpaidCommission] ["com-2", "com-3"] "batch-1" 9).2 = 1 :=
  ⟨payBatch_frame [paidCommission, unpaidCommission] ["com-2", "com-3"] "batch-1" 9,
    by decide⟩

end AutoMarket
